import Mathlib

/-
  Verification development for the Aitransfer repository (src/main.py).

  The core of the program is a text-to-record extraction pipeline:
  line cleanup, noise classification, time/flight/name token extraction,
  a state-machine parser (parse_jobs) and a TSV renderer (jobs_to_tsv).

  Strings are embedded as lists of characters (Str).  The Python regular
  expressions of the source are embedded either as bespoke deterministic
  parsers (when backtracking is locally resolvable) or through a small
  backtracking-matcher framework whose candidate remainders are produced
  in the same priority order that the CPython regex engine explores, so
  that the first surviving candidate is the match Python would pick.

  Character-class predicates (digits, whitespace, word characters,
  case folding, uppercasing) are spelled out over the character
  repertoire that actually occurs in this program's domain (ASCII plus
  the Turkish letters and the punctuation used by the source); Python's
  full Unicode tables agree with these definitions on that repertoire.
-/

namespace AiTransfer

abbrev Str := List Char

/-! ## Character classes -/

/-- ASCII decimal digits: Python regex `\d` on this domain's repertoire. -/
def isDigitC (c : Char) : Bool :=
  c == '0' || c == '1' || c == '2' || c == '3' || c == '4' ||
  c == '5' || c == '6' || c == '7' || c == '8' || c == '9'

/-- `[01]` : the first character of a two-digit hour in `([01]?\d|2[0-3])`. -/
def in01 (c : Char) : Bool := c == '0' || c == '1'

/-- `[0-3]` : the second character of the hour alternative `2[0-3]`. -/
def in03 (c : Char) : Bool := c == '0' || c == '1' || c == '2' || c == '3'

/-- `[0-5]` : the first character of a minute group `[0-5]\d`. -/
def in05 (c : Char) : Bool :=
  c == '0' || c == '1' || c == '2' || c == '3' || c == '4' || c == '5'

/-- Python `str` whitespace / regex `\s` (the characters str.strip() removes). -/
def isSpacePy (c : Char) : Bool :=
  c == ' ' || c == '\t' || c == '\n' || c == '\r' || c == '\x0b' || c == '\x0c' ||
  (0x1c ≤ c.toNat && c.toNat ≤ 0x1f) ||
  c.toNat == 0x85 || c.toNat == 0xa0 || c.toNat == 0x1680 ||
  (0x2000 ≤ c.toNat && c.toNat ≤ 0x200a) ||
  c.toNat == 0x2028 || c.toNat == 0x2029 || c.toNat == 0x202f ||
  c.toNat == 0x205f || c.toNat == 0x3000

def isAsciiUpperC (c : Char) : Bool := 'A' ≤ c && c ≤ 'Z'

def isAsciiLowerC (c : Char) : Bool := 'a' ≤ c && c ≤ 'z'

/-- `[A-Z]` under re.IGNORECASE: an ASCII letter, plus the dotless and
dotted capital i (U+0131, U+0130), which CPython's sre folds into the a-z
range on this domain's repertoire. -/
def isAlphaCi (c : Char) : Bool :=
  isAsciiUpperC c || isAsciiLowerC c || c == 'ı' || c == 'İ'

/-- Python regex word character (`\w`, used for `\b` boundaries).  ASCII
alphanumerics, underscore, and the non-ASCII letters of the domain; the
non-ASCII whitespace, punctuation and emoji used by the source are not
word characters. -/
def isWordC (c : Char) : Bool :=
  isAlphaCi c || isDigitC c || c == '_' ||
  (c.toNat ≥ 0x80 && !(isSpacePy c) &&
    !(c.toNat == 0x2018 || c.toNat == 0x2019 || c.toNat == 0x201c || c.toNat == 0x201d ||
      c.toNat == 0x2013 || c.toNat == 0x2014 || c.toNat == 0x3001 || c.toNat == 0xff1a ||
      (0x1f300 ≤ c.toNat && c.toNat ≤ 0x1faff)))

/-- Python str.upper restricted to this domain's repertoire (ASCII plus the
Turkish/Latin-1 letters appearing in the source's keyword lists). -/
def upperChar (c : Char) : Char :=
  if isAsciiLowerC c then Char.ofNat (c.toNat - 32)
  else if c == 'ç' then 'Ç' else if c == 'ğ' then 'Ğ'
  else if c == 'ı' then 'I' else if c == 'ö' then 'Ö'
  else if c == 'ş' then 'Ş' else if c == 'ü' then 'Ü'
  else if c == 'é' then 'É' else if c == 'å' then 'Å'
  else if c == 'ä' then 'Ä' else if c == 'ã' then 'Ã'
  else c

def upperPy (s : Str) : Str := s.map upperChar

/-- The case-folding CPython's sre applies to IGNORECASE literals on this
domain's repertoire: ASCII lowering plus the Turkish simple case pairs and
the sre equivalence class of dotted/dotless i (both fold to 'i'). -/
def foldLowerChar (c : Char) : Char :=
  if isAsciiUpperC c then Char.ofNat (c.toNat + 32)
  else if c == 'İ' then 'i' else if c == 'ı' then 'i'
  else if c == 'Ş' then 'ş' else if c == 'Ç' then 'ç'
  else if c == 'Ğ' then 'ğ' else if c == 'Ö' then 'ö'
  else if c == 'Ü' then 'ü'
  else c

/-! ## Basic string operations (Python str methods) -/

/-- Python str.strip() with no arguments. -/
def stripPy (s : Str) : Str :=
  ((s.dropWhile isSpacePy).reverse.dropWhile isSpacePy).reverse

/-- Python str.strip(chars). -/
def stripCharsPy (cs : List Char) (s : Str) : Str :=
  ((s.dropWhile (fun c => cs.contains c)).reverse.dropWhile
    (fun c => cs.contains c)).reverse

/-- Substring containment (Python `in` on str). -/
def containsSub : Str → Str → Bool
  | s, pat =>
    if pat.isPrefixOf s then true
    else match s with
      | [] => false
      | _ :: cs => containsSub cs pat

/-- Python str.splitlines: break characters. -/
def isLineBreak (c : Char) : Bool :=
  c == '\n' || c == '\r' || c == '\x0b' || c == '\x0c' ||
  c == '\x1c' || c == '\x1d' || c == '\x1e' ||
  c.toNat == 0x85 || c.toNat == 0x2028 || c.toNat == 0x2029

def splitlinesAux : Str → Str → List Str
  | [], acc => [acc.reverse]
  | '\r' :: '\n' :: rest, acc =>
      acc.reverse :: (if rest.isEmpty then [] else splitlinesAux rest [])
  | c :: rest, acc =>
      if isLineBreak c then
        acc.reverse :: (if rest.isEmpty then [] else splitlinesAux rest [])
      else splitlinesAux rest (c :: acc)

/-- Python str.splitlines(). -/
def splitlinesPy (s : Str) : List Str :=
  if s.isEmpty then [] else splitlinesAux s []

/-- Length of the maximal prefix of characters satisfying `p`. -/
def spanLen (p : Char → Bool) : Str → Nat
  | [] => 0
  | c :: cs => if p c then spanLen p cs + 1 else 0

/-- Split on a separator character (Python str.split(sep)). -/
def splitOnChar (sep : Char) : Str → List Str
  | [] => [[]]
  | c :: cs =>
      let r := splitOnChar sep cs
      if c == sep then [] :: r
      else match r with
        | [] => [[c]]
        | h :: t => (c :: h) :: t

/-! ## Time formatting (normalize_time, src/main.py line 99) -/

/-- Python f-string `{n:02d}` : decimal digits, zero-padded to width 2. -/
def nat2 (n : Nat) : Str :=
  if n < 10 then ['0', Nat.digitChar n]
  else if n < 100 then [Nat.digitChar (n / 10), Nat.digitChar (n % 10)]
  else Nat.toDigits 10 n

/-- Python int() on a (digit) string. -/
def charsToNat (s : Str) : Nat := s.foldl (fun a c => a * 10 + (c.toNat - 48)) 0

/-- `normalize_time(hh, mm)` : the source returns `f"{int(hh):02d}:{int(mm):02d}"`. -/
def normalize_time (hh mm : Str) : Str :=
  nat2 (charsToNat hh) ++ ':' :: nat2 (charsToNat mm)

/-! ## Time tokens (TIME_RE, src/main.py line 85)

`TIME_RE = \b([01]?\d|2[0-3])[:\.]([0-5]\d)\b`.  The hour group matches
exactly the strings accepted by `validHourTok`, the minute group exactly
those accepted by `validMinTok`. -/

/-- A string that the hour group `([01]?\d|2[0-3])` can match in full. -/
def validHourTok : Str → Bool
  | [a] => isDigitC a
  | [a, b] => (in01 a && isDigitC b) || (a == '2' && in03 b)
  | _ => false

/-- A string that the minute group `([0-5]\d)` can match in full. -/
def validMinTok : Str → Bool
  | [c, d] => in05 c && isDigitC d
  | _ => false

/-- The hour group's candidate parses at the head of `s`, in the priority
order of the backtracking engine: `[01]\d` first, then the bare `\d`, then
the alternative `2[0-3]`.  Each candidate carries the matched token and the
remaining input. -/
def hourCandidates : Str → List (Str × Str)
  | [] => []
  | [c] => if isDigitC c then [([c], [])] else []
  | c1 :: c2 :: rest =>
      (if in01 c1 && isDigitC c2 then [([c1, c2], rest)] else []) ++
      (if isDigitC c1 then [([c1], c2 :: rest)] else []) ++
      (if c1 == '2' && in03 c2 then [([c1, c2], rest)] else [])

/-- The minute group `[0-5]\d` at the head of `s`. -/
def minuteParse : Str → Option (Str × Str)
  | c :: d :: rest => if in05 c && isDigitC d then some ([c, d], rest) else none
  | _ => none

/-- Trailing `\b` after a match ending in a word character: the remainder
must be empty or start with a non-word character. -/
def boundaryOk : Str → Bool
  | [] => true
  | c :: _ => !isWordC c

/-- TIME_RE tried at one position (leading `\b` already checked by the
caller): hour group, `[:\.]`, minute group, trailing `\b`. -/
def timeMatchAt (s : Str) : Option (Str × Str) :=
  (hourCandidates s).findSome? fun hc =>
    match hc.2 with
    | sep :: r2 =>
        if sep == ':' || sep == '.' then
          match minuteParse r2 with
          | some (mm, r3) => if boundaryOk r3 then some (hc.1, mm) else none
          | none => none
        else none
    | [] => none

def timeSearchAux : Option Char → Str → Option (Str × Str)
  | _, [] => none
  | prev, c :: cs =>
      if (match prev with | none => true | some pc => !isWordC pc) then
        match timeMatchAt (c :: cs) with
        | some g => some g
        | none => timeSearchAux (some c) cs
      else timeSearchAux (some c) cs

/-- `TIME_RE.search`: leftmost match, returning the (hour, minute) groups. -/
def timeSearch (s : Str) : Option (Str × Str) := timeSearchAux none s

/-! ## Backtracking matcher framework

A matcher maps an input to the list of possible remainders, in the order
the CPython backtracking engine would try them; the head of the list is
the engine's choice. -/

abbrev Rems := List Str

def mEps : Str → Rems := fun s => [s]

def mSeq (a b : Str → Rems) : Str → Rems := fun s => (a s).flatMap b

def mCat (ms : List (Str → Rems)) : Str → Rems := ms.foldr mSeq mEps

def mAlt (a b : Str → Rems) : Str → Rems := fun s => a s ++ b s

/-- Greedy `?` on a sub-matcher: with it first, then without. -/
def mOpt (a : Str → Rems) : Str → Rems := fun s => a s ++ [s]

/-- A single character of a class. -/
def mCh (p : Char → Bool) : Str → Rems
  | [] => []
  | c :: cs => if p c then [cs] else []

/-- Greedy class repetition `p{lo,hi}` (`hi = none` for unbounded):
remainders after dropping k characters for k from min(hi, run) down to lo. -/
def mRep (p : Char → Bool) (lo : Nat) (hi : Option Nat) : Str → Rems := fun s =>
  let mx := match hi with | some h => min h (spanLen p s) | none => spanLen p s
  if mx < lo then []
  else (List.range (mx + 1 - lo)).map (fun i => s.drop (mx - i))

/-- Case-sensitive literal at the head of the input. -/
def matchLit : Str → Str → Option Str
  | [], s => some s
  | _, [] => none
  | p :: ps, c :: cs => if c == p then matchLit ps cs else none

/-- IGNORECASE literal at the head of the input (sre case folding). -/
def matchLitCi : Str → Str → Option Str
  | [], s => some s
  | _, [] => none
  | p :: ps, c :: cs =>
      if foldLowerChar c == foldLowerChar p then matchLitCi ps cs else none

def mLitCi (pat : Str) : Str → Rems := fun s => (matchLitCi pat s).toList

/-- Leftmost search for a pattern that begins and ends on `\b` boundaries
and starts with a word character: scan positions whose previous character
is not a word character, filter candidate remainders by the trailing
boundary, and return the matched prefix of the first survivor. -/
def searchBAt (pat : Str → Rems) (s : Str) : Option Str :=
  (((pat s).filter boundaryOk).head?).map (fun rem => s.take (s.length - rem.length))

def searchBAux (pat : Str → Rems) : Option Char → Str → Option Str
  | _, [] => none
  | prev, c :: cs =>
      if (match prev with | none => true | some pc => !isWordC pc) then
        match searchBAt pat (c :: cs) with
        | some m => some m
        | none => searchBAux pat (some c) cs
      else searchBAux pat (some c) cs

def searchB (pat : Str → Rems) (s : Str) : Option Str := searchBAux pat none s

/-! ## Flight codes (FLIGHT_RE, src/main.py line 90)

`FLIGHT_RE = \b([A-Z]{1,3}\d{2,5}|[A-Z]\d{1}[A-Z]\d{3,4}|[A-Z]{1,2}\d{4,5})\b`
with re.IGNORECASE. -/

def isDotSlash (c : Char) : Bool := c == '.' || c == '/'

def isColonDot (c : Char) : Bool := c == ':' || c == '.'

def flightRems : Str → Rems :=
  mAlt (mCat [mRep isAlphaCi 1 (some 3), mRep isDigitC 2 (some 5)])
    (mAlt (mCat [mCh isAlphaCi, mCh isDigitC, mCh isAlphaCi, mRep isDigitC 3 (some 4)])
      (mCat [mRep isAlphaCi 1 (some 2), mRep isDigitC 4 (some 5)]))

/-- `FLIGHT_RE.search(line)`, returning the matched substring. -/
def flightSearch (s : Str) : Option Str := searchB flightRems s

/-- `FLIGHT_RE.fullmatch(s)`: some candidate consumes the whole input
(the outer `\b` boundaries hold at the ends of the string). -/
def flightFullmatch (s : Str) : Bool :=
  !s.isEmpty && (flightRems s).any (fun r => r.isEmpty)

/-! ## Dates (DATE_RE, src/main.py line 86)

`\b(\d{1,2}[./]\d{1,2}[./]\d{2,4}|\d{1,2}\s*(Şubat|Ocak|Mart|Nisan|Mayıs|
Haziran|Temmuz|Ağustos|Eylül|Ekim|Kasım|Aralık))\b` with re.IGNORECASE. -/

def monthNames : List Str :=
  [("Şubat" : String).data, ("Ocak" : String).data, ("Mart" : String).data,
   ("Nisan" : String).data, ("Mayıs" : String).data, ("Haziran" : String).data,
   ("Temmuz" : String).data, ("Ağustos" : String).data, ("Eylül" : String).data,
   ("Ekim" : String).data, ("Kasım" : String).data, ("Aralık" : String).data]

def mMonths : Str → Rems :=
  (monthNames.map mLitCi).foldr mAlt (fun _ => [])

def dateRems : Str → Rems :=
  mAlt
    (mCat [mRep isDigitC 1 (some 2), mCh isDotSlash, mRep isDigitC 1 (some 2),
           mCh isDotSlash, mRep isDigitC 2 (some 4)])
    (mCat [mRep isDigitC 1 (some 2), mRep isSpacePy 0 none, mMonths])

/-- `DATE_RE.search(line)` viewed as a Boolean. -/
def dateSearch (s : Str) : Bool := (searchB dateRems s).isSome

/-! ## WhatsApp prefix (WHATSAPP_PREFIX_RE, src/main.py lines 92-94)

`^\s*\d{1,2}[./]\d{1,2}(?:[./]\d{2,4})?\s+\d{1,2}[:\.]\d{2}\s*[^:]{1,80}:\s*`,
deleted (re.sub with the empty replacement) from the start of the line. -/

def whatsappPat : Str → Rems :=
  mCat [mRep isSpacePy 0 none,
        mRep isDigitC 1 (some 2), mCh isDotSlash, mRep isDigitC 1 (some 2),
        mOpt (mCat [mCh isDotSlash, mRep isDigitC 2 (some 4)]),
        mRep isSpacePy 1 none,
        mRep isDigitC 1 (some 2), mCh isColonDot, mRep isDigitC 2 (some 2),
        mRep isSpacePy 0 none,
        mRep (fun c => !(c == ':')) 1 (some 80),
        mCh (fun c => c == ':'),
        mRep isSpacePy 0 none]

/-- `WHATSAPP_PREFIX_RE.sub("", line)`: the pattern is anchored, so at most
the leading match is removed. -/
def whatsappSub (s : Str) : Str :=
  match (whatsappPat s).head? with
  | some rem => rem
  | none => s

/-! ## Mojibake repair (fix_mojibake, src/main.py lines 103-116)

`s.encode("latin1", errors="ignore").decode("utf-8", errors="ignore")`,
applied only when the string contains one of the marker characters. -/

/-- latin-1 encoding with errors="ignore": characters above U+00FF are dropped. -/
def encodeLatin1Ignore (s : Str) : List Nat :=
  s.filterMap (fun c => if c.toNat ≤ 0xff then some c.toNat else none)

def isContByte (b : Nat) : Bool := 0x80 ≤ b && b ≤ 0xbf

/-- UTF-8 decoding with errors="ignore": maximal invalid subparts are
skipped, decoding resumes at the next byte (fuel-driven recursion; the
fuel is the byte count, and every step consumes at least one byte). -/
def decodeUtf8Aux : Nat → List Nat → Str
  | 0, _ => []
  | _, [] => []
  | Nat.succ f, b :: bs =>
    if b ≤ 0x7f then Char.ofNat b :: decodeUtf8Aux f bs
    else if 0xc2 ≤ b && b ≤ 0xdf then
      match bs with
      | b2 :: bs2 =>
          if isContByte b2 then
            Char.ofNat ((b - 0xc0) * 0x40 + (b2 - 0x80)) :: decodeUtf8Aux f bs2
          else decodeUtf8Aux f bs
      | [] => []
    else if 0xe0 ≤ b && b ≤ 0xef then
      match bs with
      | b2 :: bs2 =>
          if (if b == 0xe0 then 0xa0 ≤ b2 && b2 ≤ 0xbf
              else if b == 0xed then 0x80 ≤ b2 && b2 ≤ 0x9f
              else isContByte b2) then
            match bs2 with
            | b3 :: bs3 =>
                if isContByte b3 then
                  Char.ofNat ((b - 0xe0) * 0x1000 + (b2 - 0x80) * 0x40 + (b3 - 0x80)) ::
                    decodeUtf8Aux f bs3
                else decodeUtf8Aux f bs2
            | [] => []
          else decodeUtf8Aux f bs
      | [] => []
    else if 0xf0 ≤ b && b ≤ 0xf4 then
      match bs with
      | b2 :: bs2 =>
          if (if b == 0xf0 then 0x90 ≤ b2 && b2 ≤ 0xbf
              else if b == 0xf4 then 0x80 ≤ b2 && b2 ≤ 0x8f
              else isContByte b2) then
            match bs2 with
            | b3 :: bs3 =>
                if isContByte b3 then
                  match bs3 with
                  | b4 :: bs4 =>
                      if isContByte b4 then
                        Char.ofNat ((b - 0xf0) * 0x40000 + (b2 - 0x80) * 0x1000 +
                          (b3 - 0x80) * 0x40 + (b4 - 0x80)) :: decodeUtf8Aux f bs4
                      else decodeUtf8Aux f bs3
                  | [] => []
            else decodeUtf8Aux f bs2
            | [] => []
          else decodeUtf8Aux f bs
      | [] => []
    else decodeUtf8Aux f bs

def decodeUtf8Ignore (bytes : List Nat) : Str := decodeUtf8Aux bytes.length bytes

/-- The mojibake heuristic of the source: `"Ã" in s or "Å" in s or "Ä" in s`. -/
def containsMarker (s : Str) : Bool :=
  s.contains 'Ã' || s.contains 'Å' || s.contains 'Ä'

/-- `fix_mojibake(s)` (src/main.py lines 103-116). -/
def fix_mojibake (s : Str) : Str :=
  if s.isEmpty then s
  else if containsMarker s then decodeUtf8Ignore (encodeLatin1Ignore s)
  else s

/-! ## Phone stripping (strip_phones, src/main.py lines 119-123)

`re.sub(r"\+?\d[\d\s\-]{7,}\d", "", s)` followed by collapsing multiple
whitespace and stripping. -/

def phoneClass (c : Char) : Bool := isDigitC c || isSpacePy c || c == '-'

/-- After the opening `\d`: the greedy `[\d\s\-]{7,}` followed by the
closing `\d` ends, under backtracking, at the last digit of the class run
that is at least 7 characters in; returns the number of characters
consumed after the opening digit. -/
def phoneBody (s : Str) : Option Nat :=
  let run := spanLen phoneClass s
  ((List.range run).reverse.filterMap (fun k =>
    if 7 ≤ k && (match s.drop k with | c :: _ => isDigitC c | [] => false) then
      some (k + 1)
    else none)).head?

def phoneNoPlus : Str → Option Nat
  | d :: body => if isDigitC d then (phoneBody body).map (fun l => 1 + l) else none
  | [] => none

/-- Length of a phone match starting at this position (the optional `+`
branch is tried first; if its body fails, the plusless branch requires a
digit first, which `+` is not). -/
def phoneMatchAt : Str → Option Nat
  | '+' :: rest =>
      (match rest with
       | d :: body => if isDigitC d then (phoneBody body).map (fun l => 2 + l) else none
       | [] => none)
  | s => phoneNoPlus s

/-- Global substitution of phone matches with the empty string. -/
def phoneScan : Nat → Str → Str
  | 0, s => s
  | _, [] => []
  | Nat.succ f, c :: cs =>
      match phoneMatchAt (c :: cs) with
      | some l => phoneScan f ((c :: cs).drop l)
      | none => c :: phoneScan f cs

/-- `re.sub(r"\s{2,}", " ", s)`: runs of two or more whitespace characters
become a single space; a lone whitespace character is left as it is. -/
def collapseSpacesAux : Nat → Str → Str
  | 0, s => s
  | _, [] => []
  | Nat.succ f, c :: cs =>
      if isSpacePy c then
        let k := spanLen isSpacePy (c :: cs)
        if 2 ≤ k then ' ' :: collapseSpacesAux f ((c :: cs).drop k)
        else c :: collapseSpacesAux f cs
      else c :: collapseSpacesAux f cs

def collapseSpaces (s : Str) : Str := collapseSpacesAux s.length s

/-- `strip_phones(s)` (src/main.py lines 119-123). -/
def strip_phones (s : Str) : Str :=
  stripPy (collapseSpaces (phoneScan s.length s))

/-! ## Line cleanup (clean_line, src/main.py lines 142-158) -/

/-- Global removal of all (non-overlapping) occurrences of a literal. -/
def removeSubAll (pat : Str) : Nat → Str → Str
  | 0, s => s
  | _, [] => []
  | Nat.succ f, c :: cs =>
      match matchLit pat (c :: cs) with
      | some rem => removeSubAll pat f rem
      | none => c :: removeSubAll pat f cs

/-- `re.sub(r"\b(Yarın için|Bugün için)\b", "", line, flags=re.IGNORECASE)`:
a match requires a non-word character (or the string edge) on both sides;
scanning resumes after each removed match. -/
def ybMatchAt (prev : Option Char) (s : Str) : Option Nat :=
  if (match prev with | none => true | some pc => !isWordC pc) then
    ([("Yarın için" : String).data, ("Bugün için" : String).data]).findSome?
      (fun p =>
        match matchLitCi p s with
        | some rem => if boundaryOk rem then some (s.length - rem.length) else none
        | none => none)
  else none

def ybScan : Nat → Option Char → Str → Str
  | 0, _, s => s
  | _, _, [] => []
  | Nat.succ f, prev, c :: cs =>
      match ybMatchAt prev (c :: cs) with
      | some l => ybScan f ((c :: cs).take l).getLast? ((c :: cs).drop l)
      | none => c :: ybScan f (some c) cs

def ybSub (s : Str) : Str := ybScan s.length none s

/-- The emoji class removed by clean_line: `[\U0001F300-\U0001FAFF]`. -/
def isEmojiC (c : Char) : Bool := 0x1f300 ≤ c.toNat && c.toNat ≤ 0x1faff

/-- `clean_line(line)` (src/main.py lines 142-158). -/
def clean_line (line : Str) : Str :=
  let l1 := fix_mojibake line
  let l2 := stripPy (l1.map (fun c => if c.toNat == 0xa0 then ' ' else c))
  let l3 := whatsappSub l2
  let l4 := stripPy (removeSubAll ("Uçak inmiş" : String).data l3.length l3)
  let l5 := stripPy (ybSub l4)
  let l6 := stripPy (l5.filter (fun c => !isEmojiC c))
  let l7 := stripPy (collapseSpaces l6)
  l7

/-! ## Address classification (looks_like_address, src/main.py lines 126-139) -/

/-- `re.search(r"\b\d{5}\b", line)`: a maximal digit run of exactly five
digits whose neighbours are not word characters. -/
def postal5Aux : Option Char → Str → Bool
  | _, [] => false
  | prev, c :: cs =>
      if (match prev with | none => true | some pc => !isWordC pc) then
        (let run := spanLen isDigitC (c :: cs)
         if run == 5 && boundaryOk ((c :: cs).drop 5) then true
         else postal5Aux (some c) cs)
      else postal5Aux (some c) cs

def postal5 (s : Str) : Bool := postal5Aux none s

def addressKeywords : List Str :=
  [("MAH" : String).data, ("MAHALLE" : String).data, ("CAD" : String).data,
   ("CADDESI" : String).data, ("CD." : String).data, ("SOK" : String).data,
   ("SK." : String).data, ("NO:" : String).data, ("KAT" : String).data,
   ("DAIRE" : String).data, ("FATIH/" : String).data, ("BEYOĞLU/" : String).data,
   ("İSTANBUL" : String).data, ("TÜRKİYE" : String).data, ("TURKIYE" : String).data]

/-- `looks_like_address(line)` (src/main.py lines 126-139). -/
def looks_like_address (line : Str) : Bool :=
  let u := upperPy line
  if containsSub u ("HTTP" : String).data || containsSub u ("WWW." : String).data then true
  else if postal5 line then true
  else if addressKeywords.any (fun k => containsSub u k) then true
  else if 3 ≤ line.countP (fun c => c = ',') then true
  else false

/-! ## Noise classification (is_noise_line, src/main.py lines 161-193) -/

/-- `ONLY_TIME_LINE_RE.match(line)` : `^\s*([01]?\d|2[0-3])[:\.]([0-5]\d)\s*$`,
returning the two groups. -/
def onlyTimeLine (s : Str) : Option (Str × Str) :=
  let t := s.drop (spanLen isSpacePy s)
  (hourCandidates t).findSome? fun hc =>
    match hc.2 with
    | sep :: r2 =>
        if sep == ':' || sep == '.' then
          match minuteParse r2 with
          | some (mm, r3) =>
              if (r3.drop (spanLen isSpacePy r3)).isEmpty then some (hc.1, mm) else none
          | none => none
        else none
    | [] => none

def badStarts : List Str :=
  [("ALIŞ SAAT" : String).data, ("ALIS SAAT" : String).data, ("TRANSFER" : String).data,
   ("ARAÇ" : String).data, ("ARAC" : String).data, ("OTEL" : String).data,
   ("UÇAK KOD" : String).data, ("UCAK KOD" : String).data, ("UÇUŞ" : String).data,
   ("UCUS" : String).data, ("UÇUŞ KOD" : String).data, ("UCUS KOD" : String).data,
   ("PAX" : String).data, ("IST ALIŞ" : String).data, ("IST ALIS" : String).data]

def separatorLines : List Str :=
  [("?" : String).data, ("-" : String).data, ("—" : String).data,
   ("–" : String).data, ("''" : String).data, ("\x22\x22" : String).data]

/-- `is_noise_line(line)` (src/main.py lines 161-193). -/
def is_noise_line (line : Str) : Bool :=
  if line.isEmpty then true
  else if dateSearch line then
    (if (onlyTimeLine line).isSome then false else true)
  else
    let u := upperPy line
    if looks_like_address line then true
    else if badStarts.any (fun x => x.isPrefixOf u) then false
    else if separatorLines.any (fun x => u == x) then true
    else false

/-! ## Pickup-time extraction (extract_pickup_time_from_line,
src/main.py lines 196-210) -/

def isColonOrSpace (c : Char) : Bool := c == ':' || isSpacePy c

/-- After `(ALIŞ|ALIS)` : `\s*SAAT[:\s]*([01]?\d|2[0-3])[:\.]([0-5]\d)`. -/
def alisTail (r : Str) : Option (Str × Str) :=
  let r1 := r.drop (spanLen isSpacePy r)
  match matchLitCi ("SAAT" : String).data r1 with
  | none => none
  | some r2 =>
    let r3 := r2.drop (spanLen isColonOrSpace r2)
    (hourCandidates r3).findSome? fun hc =>
      match hc.2 with
      | sep :: r5 =>
          if sep == ':' || sep == '.' then
            (minuteParse r5).map (fun mr => (hc.1, mr.1))
          else none
      | [] => none

/-- One attempt of the "Alış saat" pattern at a position: the alternation
`(ALIŞ|ALIS)` can match a given prefix in at most one way. -/
def alisSaatAt (s : Str) : Option (Str × Str) :=
  match matchLitCi ("ALIŞ" : String).data s with
  | some r => alisTail r
  | none =>
    match matchLitCi ("ALIS" : String).data s with
    | some r => alisTail r
    | none => none

def alisSaatSearch : Str → Option (Str × Str)
  | [] => none
  | c :: cs =>
      match alisSaatAt (c :: cs) with
      | some g => some g
      | none => alisSaatSearch cs

/-- `extract_pickup_time_from_line(line)` (src/main.py lines 196-210). -/
def extract_pickup_time_from_line (line : Str) : Option Str :=
  match onlyTimeLine line with
  | some g => some (normalize_time g.1 g.2)
  | none =>
    match alisSaatSearch line with
    | some g => some (normalize_time g.1 g.2)
    | none => none

/-! ## Flight extraction (extract_flight_from_line, src/main.py lines 213-233) -/

def extract_flight_from_line (line : Str) : Option Str :=
  let line2 := if line.contains '*' then line.filter (fun c => !(c == '*')) else line
  match flightSearch line2 with
  | none => none
  | some m =>
    let code := upperPy (m.filter (fun c => !(c == ' ')))
    if code.length < 4 then none else some code

/-! ## Name extraction (extract_names_from_line, src/main.py lines 236-282) -/

/-- Search for `(İSİM|ISIM)\s*LİSTESİ\s*[:：]\s*(.+)$` (re.IGNORECASE);
both alternatives case-fold to "isim", so a single folded literal suffices.
Returns group 2: everything after the colon and the greedy `\s*`, with the
`\s*` giving back one character when the tail is all whitespace so that
`(.+)` can still take one. -/
def isimListesiAt (s : Str) : Option Str :=
  match matchLitCi ("ISIM" : String).data s with
  | none => none
  | some r1 =>
    let r2 := r1.drop (spanLen isSpacePy r1)
    match matchLitCi ("LİSTESİ" : String).data r2 with
    | none => none
    | some r3 =>
      let r4 := r3.drop (spanLen isSpacePy r3)
      match r4 with
      | c :: r5 =>
          if c == ':' || c == '：' then
            (if r5.isEmpty then none
             else
               let k := spanLen isSpacePy r5
               if k < r5.length then some (r5.drop k) else some (r5.drop (k - 1)))
          else none
      | [] => none

def isimListesiSearch : Str → Option Str
  | [] => none
  | c :: cs =>
      match isimListesiAt (c :: cs) with
      | some t => some t
      | none => isimListesiSearch cs

/-- `re.sub(r"^\s*\d+\.\s*", "", s)`: under backtracking only the full
digit run followed by a literal dot can match. -/
def numberedSub (s : Str) : Str :=
  let sp := spanLen isSpacePy s
  let t := s.drop sp
  let d := spanLen isDigitC t
  if d == 0 then s
  else match t.drop d with
    | '.' :: rest => rest.drop (spanLen isSpacePy rest)
    | _ => s

/-- The character class kept by the name heuristic:
`[A-Za-zÇĞİÖŞÜçğıöşüÀ-ÿ\s\-']` (the complement is deleted before the
length test). -/
def isNameKeep (c : Char) : Bool :=
  isAlphaCi c ||
  (["Ç", "Ğ", "İ", "Ö", "Ş", "Ü", "ç", "ğ", "ı", "ö", "ş", "ü"].map
    (fun t => (t : String).data)).any (fun t => t == [c]) ||
  (0xc0 ≤ c.toNat && c.toNat ≤ 0xff) ||
  isSpacePy c || c == '-' || c == '\''

/-- `extract_names_from_line(line)` (src/main.py lines 236-282). -/
def extract_names_from_line (line : Str) : List Str :=
  let s0 := stripPy line
  match isimListesiSearch s0 with
  | some tail0 =>
      let tail := (stripPy tail0).map (fun c => if c == '、' then ',' else c)
      let parts := (splitOnChar ',' tail).map
        (fun p => stripCharsPy ['\''] (stripCharsPy ['\x22'] (stripPy p)))
      parts.filter (fun p => !p.isEmpty)
  | none =>
      let s1 := stripPy (numberedSub s0)
      let s2 := strip_phones s1
      if (s2.filter isNameKeep).length < 2 then []
      else if (onlyTimeLine s2).isSome then []
      else if flightFullmatch (s2.filter (fun c => !(c == ' '))) then []
      else
        let s3 := stripPy (stripCharsPy ['\''] (stripCharsPy ['\x22'] (stripPy s2)))
        if s3.isEmpty then [] else [s3]

/-! ## The state-machine parser (parse_jobs, src/main.py lines 285-392) -/

/-- One output record: the dict `{"saat": ..., "ucus": ..., "yolcu": ...}`. -/
structure Job where
  saat : Str
  ucus : Str
  yolcu : Str
deriving DecidableEq, Repr

/-- The parser's mutable state: the emitted jobs plus the pending block. -/
structure PState where
  jobs : List Job
  pending_names : List Str
  pending_flight : Str
  pending_drop : Bool
deriving DecidableEq, Repr

/-- Python `x or "?"` on a string. -/
def orQmark (s : Str) : Str := if s.isEmpty then ['?'] else s

/-- One step of the de-duplication inside finalize (src/main.py lines
329-338): strip the name, drop it if empty or already seen, else append
(the Python `seen` set always holds exactly the members of `uniq`). -/
def dedupStep (uniq : List Str) (n : Str) : List Str :=
  let n2 := stripPy n
  if n2.isEmpty then uniq
  else if uniq.contains n2 then uniq
  else uniq ++ [n2]

/-- The de-duplication inside finalize (src/main.py lines 329-338). -/
def dedupNames (l : List Str) : List Str := l.foldl dedupStep []

/-- Keep-first de-duplication, written from the claim's words ("exactly one
entry ... the first-seen fragment ... first-seen insertion order"): walk the
list once, keep an element only the first time it is seen.  Stated against
dedupNames to verify the order part of the claim. -/
def dedupFirstSeenAux : List Str → List Str → List Str
  | [], _ => []
  | x :: xs, seen =>
      if seen.contains x then dedupFirstSeenAux xs seen
      else x :: dedupFirstSeenAux xs (seen ++ [x])

def dedupFirstSeen (l : List Str) : List Str := dedupFirstSeenAux l []

/-- `", ".join(uniq)`. -/
def joinComma (l : List Str) : Str :=
  (l.intersperse (", " : String).data).flatten

/-- `finalize(time_str)` (src/main.py lines 314-348).  All paths reset the
pending block; a record is appended only when the block is not marked for
drop and at least one name was collected. -/
def finalize (drop_saw : Bool) (st : PState) (time_str : Str) : PState :=
  if drop_saw && st.pending_drop then
    { st with pending_names := [], pending_flight := ['?'], pending_drop := false }
  else if st.pending_names.isEmpty then
    { st with pending_names := [], pending_flight := ['?'], pending_drop := false }
  else
    let uniq := dedupNames st.pending_names
    { jobs := st.jobs ++
        [{ saat := orQmark time_str, ucus := orQmark st.pending_flight,
           yolcu := joinComma uniq }],
      pending_names := [], pending_flight := ['?'], pending_drop := false }

/-- `"SAW" in cl.upper()`. -/
def hasSAW (cl : Str) : Bool := containsSub (upperPy cl) ("SAW" : String).data

/-- The body of the main loop of parse_jobs (src/main.py lines 350-391),
acting on one cleaned line. -/
def processLine (drop_saw : Bool) (st : PState) (cl : Str) : PState :=
  if drop_saw && hasSAW cl then { st with pending_drop := true }
  else if looks_like_address cl then st
  else
    let st1 :=
      match extract_flight_from_line cl with
      | some f => { st with pending_flight := f }
      | none => st
    match extract_pickup_time_from_line cl with
    | some t =>
        if !st1.pending_names.isEmpty ||
           (!st1.pending_flight.isEmpty && !(st1.pending_flight == ['?'])) then
          finalize drop_saw st1 t
        else st1
    | none =>
        if dateSearch cl && !(onlyTimeLine cl).isSome then st1
        else if is_noise_line cl then
          (let ns := extract_names_from_line cl
           if ns.isEmpty then st1
           else { st1 with pending_names := st1.pending_names ++ ns })
        else
          let ns := extract_names_from_line cl
          if ns.isEmpty then st1
          else { st1 with pending_names := st1.pending_names ++ ns }

/-- The pre-cleaning loop of parse_jobs (src/main.py lines 295-307): split
into lines, clean each, and keep the non-empty results.  (The loop also
sets a `saw_flag` variable that the rest of the source never reads.) -/
def cleanedLines (raw : Str) : List Str :=
  ((splitlinesPy (fix_mojibake raw)).map clean_line).filter (fun cl => !cl.isEmpty)

def initState : PState :=
  { jobs := [], pending_names := [], pending_flight := ['?'], pending_drop := false }

/-- `parse_jobs(raw, drop_saw)` (src/main.py lines 285-392). -/
def parse_jobs (raw : Str) (drop_saw : Bool) : List Job :=
  ((cleanedLines raw).foldl (processLine drop_saw) initState).jobs

/-! ## Rendering (jobs_to_tsv, src/main.py lines 395-407) -/

/-- `"\n".join(out_lines)`. -/
def joinNewline (l : List Str) : Str :=
  (l.intersperse ['\n']).flatten

/-- `jobs_to_tsv(jobs)` (src/main.py lines 395-407): one line per job,
`saat TAB TAB ucus TAB yolcu`; there is no header line. -/
def jobs_to_tsv (jobs : List Job) : Str :=
  joinNewline (jobs.map (fun j =>
    stripPy (orQmark j.saat) ++ '\t' :: '\t' ::
    upperPy (stripPy (orQmark j.ucus)) ++ '\t' :: stripPy (orQmark j.yolcu)))

/-! ## Helper lemmas -/

lemma mem_of_isDigitC {c : Char} (h : isDigitC c = true) :
    c ∈ ['0', '1', '2', '3', '4', '5', '6', '7', '8', '9'] := by
  simp only [isDigitC, Bool.or_eq_true, beq_iff_eq] at h
  simp only [List.mem_cons, List.not_mem_nil, or_false]
  tauto

lemma mem_of_in01 {c : Char} (h : in01 c = true) : c ∈ ['0', '1'] := by
  simp only [in01, Bool.or_eq_true, beq_iff_eq] at h
  simp only [List.mem_cons, List.not_mem_nil, or_false]
  tauto

lemma mem_of_in03 {c : Char} (h : in03 c = true) : c ∈ ['0', '1', '2', '3'] := by
  simp only [in03, Bool.or_eq_true, beq_iff_eq] at h
  simp only [List.mem_cons, List.not_mem_nil, or_false]
  tauto

lemma mem_of_in05 {c : Char} (h : in05 c = true) : c ∈ ['0', '1', '2', '3', '4', '5'] := by
  simp only [in05, Bool.or_eq_true, beq_iff_eq] at h
  simp only [List.mem_cons, List.not_mem_nil, or_false]
  tauto

/-- A digit of the hour/minute groups round-trips through int() and the
zero-padded formatting: a single accepted hour digit prints as itself
preceded by '0', and an accepted two-digit hour prints as its own digits. -/
lemma nat2_hour_tok (hh : Str) (h : validHourTok hh = true) :
    nat2 (charsToNat hh) = if hh.length = 1 then '0' :: hh else hh := by
  match hh with
  | [] => simp [validHourTok] at h
  | [a] =>
      simp only [validHourTok] at h
      have ha := mem_of_isDigitC h
      fin_cases ha <;> decide
  | [a, b] =>
      simp only [validHourTok, Bool.or_eq_true, Bool.and_eq_true, beq_iff_eq] at h
      rcases h with ⟨ha, hb⟩ | ⟨rfl, hb⟩
      · have ha2 := mem_of_in01 ha
        have hb2 := mem_of_isDigitC hb
        fin_cases ha2 <;> fin_cases hb2 <;> decide
      · have hb2 := mem_of_in03 hb
        fin_cases hb2 <;> decide
  | _ :: _ :: _ :: _ => simp [validHourTok] at h

/-- An accepted two-digit minute group prints back as exactly its digits. -/
lemma nat2_min_tok (mm : Str) (h : validMinTok mm = true) :
    nat2 (charsToNat mm) = mm := by
  match mm with
  | [] => simp [validMinTok] at h
  | [_] => simp [validMinTok] at h
  | [c, d] =>
      simp only [validMinTok, Bool.and_eq_true] at h
      have hc2 := mem_of_in05 h.1
      have hd2 := mem_of_isDigitC h.2
      fin_cases hc2 <;> fin_cases hd2 <;> decide
  | _ :: _ :: _ :: _ => simp [validMinTok] at h

/-- finalize appends at most one record. -/
lemma finalize_jobs_length_le (b : Bool) (st : PState) (t : Str) :
    (finalize b st t).jobs.length ≤ st.jobs.length + 1 := by
  unfold finalize
  split
  · exact Nat.le_add_right _ _
  · split
    · exact Nat.le_add_right _ _
    · simp

/-- Processing one cleaned line grows the job list only at a line carrying
a pickup time, and then by at most one record. -/
lemma processLine_jobs_length_le (b : Bool) (st : PState) (cl : Str) :
    (processLine b st cl).jobs.length ≤
      st.jobs.length + (if (extract_pickup_time_from_line cl).isSome then 1 else 0) := by
  unfold processLine
  by_cases hsaw : (b && hasSAW cl) = true
  · simp only [hsaw, if_true]
    exact Nat.le_add_right _ _
  · simp only [Bool.not_eq_true] at hsaw
    simp only [hsaw, Bool.false_eq_true, if_false]
    by_cases haddr : looks_like_address cl = true
    · simp only [haddr, if_true]
      exact Nat.le_add_right _ _
    · simp only [Bool.not_eq_true] at haddr
      simp only [haddr, Bool.false_eq_true, if_false]
      cases hf : extract_flight_from_line cl <;>
        cases hp : extract_pickup_time_from_line cl <;>
          simp only [Option.isSome_some, Option.isSome_none, if_true, if_false,
            Bool.false_eq_true] <;>
        -- pickup-time lines: finalize adds at most one record; all other
        -- branches leave the job list unchanged
        · first
          | (split
             · exact finalize_jobs_length_le ..
             · exact Nat.le_succ _)
          | (split <;> (try split) <;> (try split) <;> simp)

/-- Folding the loop body over a line list: the number of emitted jobs is
bounded by the number of lines carrying a pickup time. -/
lemma foldl_jobs_length_le (b : Bool) (lines : List Str) :
    ∀ st : PState,
      ((lines.foldl (processLine b) st).jobs.length ≤
        st.jobs.length +
          lines.countP (fun cl => (extract_pickup_time_from_line cl).isSome)) := by
  induction lines with
  | nil => intro st; simp
  | cons c t ih =>
      intro st
      have h1 := processLine_jobs_length_le b st c
      have h2 := ih (processLine b st c)
      simp only [List.foldl_cons, List.countP_cons]
      by_cases hp : (extract_pickup_time_from_line c).isSome = true <;>
        simp only [hp, Bool.false_eq_true, if_true, if_false] at h1 ⊢ <;> omega

/-! ## De-duplication lemmas (for finalize) -/

/-- The Boolean tests of dedupStep, read at the propositional level. -/
lemma dedupStep_eq (acc : List Str) (n : Str) :
    dedupStep acc n =
      if stripPy n = [] then acc
      else if stripPy n ∈ acc then acc else acc ++ [stripPy n] := by
  simp [dedupStep]

lemma dedup_foldl_mem (l : List Str) :
    ∀ (acc : List Str) (s : Str),
      s ∈ l.foldl dedupStep acc ↔ s ∈ acc ∨ (s ≠ [] ∧ s ∈ l.map stripPy) := by
  induction l with
  | nil => intro acc s; simp
  | cons n t ih =>
      intro acc s
      simp only [List.foldl_cons, List.map_cons, List.mem_cons]
      rw [ih, dedupStep_eq]
      by_cases h0 : stripPy n = []
      · simp only [h0, if_true]
        constructor
        · rintro (h | h)
          · exact Or.inl h
          · exact Or.inr ⟨h.1, Or.inr h.2⟩
        · rintro (h | ⟨hne, h | h⟩)
          · exact Or.inl h
          · exact absurd h hne
          · exact Or.inr ⟨hne, h⟩
      · simp only [h0, if_false]
        by_cases hc : stripPy n ∈ acc
        · simp only [hc, if_true]
          constructor
          · rintro (h | h)
            · exact Or.inl h
            · exact Or.inr ⟨h.1, Or.inr h.2⟩
          · rintro (h | ⟨hne, h | h⟩)
            · exact Or.inl h
            · exact Or.inl (h ▸ hc)
            · exact Or.inr ⟨hne, h⟩
        · simp only [hc, if_false]
          constructor
          · rintro (h | h)
            · rcases List.mem_append.mp h with h | h
              · exact Or.inl h
              · have hs : s = stripPy n := by simpa using h
                exact Or.inr ⟨fun he => h0 (hs.symm.trans he), Or.inl hs⟩
            · exact Or.inr ⟨h.1, Or.inr h.2⟩
          · rintro (h | ⟨hne, h | h⟩)
            · exact Or.inl (List.mem_append.mpr (Or.inl h))
            · exact Or.inl (List.mem_append.mpr (Or.inr (by simp [h])))
            · exact Or.inr ⟨hne, h⟩

lemma dedup_foldl_nodup (l : List Str) :
    ∀ acc : List Str, acc.Nodup → (l.foldl dedupStep acc).Nodup := by
  induction l with
  | nil => intro acc h; simpa using h
  | cons n t ih =>
      intro acc h
      simp only [List.foldl_cons]
      apply ih
      rw [dedupStep_eq]
      by_cases h0 : stripPy n = []
      · simpa [h0] using h
      · simp only [h0, if_false]
        by_cases hc : stripPy n ∈ acc
        · simpa [hc] using h
        · simp only [hc, if_false]
          simpa [List.nodup_append] using ⟨h, hc⟩

lemma dedup_foldl_sublist (l : List Str) :
    ∀ acc : List Str, ∃ t : List Str,
      l.foldl dedupStep acc = acc ++ t ∧ t.Sublist (l.map stripPy) := by
  induction l with
  | nil => intro acc; exact ⟨[], by simp, by simp⟩
  | cons n t ih =>
      intro acc
      simp only [List.foldl_cons, List.map_cons]
      rw [dedupStep_eq]
      by_cases h0 : stripPy n = []
      · obtain ⟨u, hu, hs⟩ := ih acc
        exact ⟨u, by simpa [h0] using hu, hs.cons _⟩
      · simp only [h0, if_false]
        by_cases hc : stripPy n ∈ acc
        · obtain ⟨u, hu, hs⟩ := ih acc
          exact ⟨u, by simpa [hc] using hu, hs.cons _⟩
        · simp only [hc, if_false]
          obtain ⟨u, hu, hs⟩ := ih (acc ++ [stripPy n])
          refine ⟨stripPy n :: u, ?_, hs.cons₂ _⟩
          rw [hu, List.append_assoc]
          rfl

/-- The source's fold with its seen-set is exactly keep-first
de-duplication of the stripped, non-empty fragments. -/
lemma dedup_foldl_firstSeen (l : List Str) :
    ∀ acc : List Str,
      l.foldl dedupStep acc =
        acc ++ dedupFirstSeenAux ((l.map stripPy).filter (fun s => !s.isEmpty)) acc := by
  induction l with
  | nil => intro acc; simp [dedupFirstSeenAux]
  | cons n t ih =>
      intro acc
      simp only [List.foldl_cons, List.map_cons, List.filter_cons]
      rw [dedupStep_eq]
      by_cases h0 : stripPy n = []
      · have hemp : (!(stripPy n).isEmpty) = false := by simp [h0]
        simp only [h0, if_true, hemp, Bool.false_eq_true, if_false]
        exact ih acc
      · have hne : (!(stripPy n).isEmpty) = true := by
          simp [List.isEmpty_iff, h0]
        simp only [h0, if_false, hne, if_true]
        by_cases hc : stripPy n ∈ acc
        · have hcb : acc.contains (stripPy n) = true := by simpa using hc
          simp only [hc, if_true, dedupFirstSeenAux, hcb]
          exact ih acc
        · have hcb : acc.contains (stripPy n) = false := by simpa using hc
          simp only [hc, if_false, dedupFirstSeenAux, hcb, Bool.false_eq_true]
          rw [ih (acc ++ [stripPy n]), List.append_assoc]
          rfl

/-! ## Claim theorems -/

/-- C1 (counterexample): the line "18:05" survives cleaning, is not noise,
and carries a time token (it is even a pickup-time anchor), yet parse_jobs
emits zero records for it — the record count does not equal the number of
time tokens in substantive lines. -/
theorem c1_counterexample :
    parse_jobs (("18:05" : String).data) false = [] ∧
    parse_jobs (("18:05" : String).data) true = [] ∧
    clean_line (("18:05" : String).data) = ("18:05" : String).data ∧
    is_noise_line (("18:05" : String).data) = false ∧
    extract_pickup_time_from_line (("18:05" : String).data) =
      some (("18:05" : String).data) ∧
    (timeSearch (("18:05" : String).data)).isSome = true :=
  ⟨by decide, by decide, by decide, by decide, by decide, by decide⟩

/-- C1 (amended): a record is only ever emitted at a cleaned line carrying a
pickup time (a time-only line or an "Alış saat" line), so the number of
records is at most the number of such anchor lines; equality fails because
an anchor reached with no accumulated names emits nothing. -/
theorem c1_records_at_most_time_anchors (raw : Str) (b : Bool) :
    (parse_jobs raw b).length ≤
      (cleanedLines raw).countP
        (fun cl => (extract_pickup_time_from_line cl).isSome) := by
  have h := foldl_jobs_length_le b (cleanedLines raw) initState
  simpa [parse_jobs, initState] using h

/-- C2: for every recognized time token the digits are preserved exactly;
the separator becomes ':' and a one-digit hour is zero-padded.  "7.5" is
rejected by TIME_RE (one-digit minute); "07:05" and "7:05" both normalize
to "07:05". -/
theorem c2_time_digit_preservation :
    (∀ hh mm : Str, validHourTok hh = true → validMinTok mm = true →
        normalize_time hh mm = (if hh.length = 1 then '0' :: hh else hh) ++ ':' :: mm) ∧
    timeSearch (("7.5" : String).data) = none ∧
    (timeSearch (("07:05" : String).data) =
        some ((("07" : String).data), (("05" : String).data)) ∧
      normalize_time (("07" : String).data) (("05" : String).data) =
        ("07:05" : String).data) ∧
    (timeSearch (("7:05" : String).data) =
        some ((("7" : String).data), (("05" : String).data)) ∧
      normalize_time (("7" : String).data) (("05" : String).data) =
        ("07:05" : String).data) := by
  refine ⟨?_, by decide, ⟨by decide, by decide⟩, ⟨by decide, by decide⟩⟩
  intro hh mm h1 h2
  simp only [normalize_time, nat2_hour_tok hh h1, nat2_min_tok mm h2]

/-- C2 witness: the universal part applied at the concrete token "18":"05". -/
theorem c2_time_digit_preservation_witness :
    normalize_time (("18" : String).data) (("05" : String).data) =
      ("18:05" : String).data := by
  have h := c2_time_digit_preservation.1 (("18" : String).data) (("05" : String).data)
    (by decide) (by decide)
  exact h.trans (by decide)

/-- C3: the input "Funda Kara\nTK1710\n18:05" produces exactly one record
(time "18:05", flight "TK1710", passenger "Funda Kara"), rendered as the
row "18:05 TAB TAB TK1710 TAB Funda Kara". -/
theorem c3_end_to_end_scenario :
    parse_jobs (("Funda Kara\nTK1710\n18:05" : String).data) false =
      [{ saat := ("18:05" : String).data, ucus := ("TK1710" : String).data,
         yolcu := ("Funda Kara" : String).data }] ∧
    parse_jobs (("Funda Kara\nTK1710\n18:05" : String).data) true =
      [{ saat := ("18:05" : String).data, ucus := ("TK1710" : String).data,
         yolcu := ("Funda Kara" : String).data }] ∧
    jobs_to_tsv
      [{ saat := ("18:05" : String).data, ucus := ("TK1710" : String).data,
         yolcu := ("Funda Kara" : String).data }] =
      ("18:05\t\tTK1710\tFunda Kara" : String).data :=
  ⟨by decide, by decide, by decide⟩

/-- C4 (counterexample): on "Alice" followed by a line carrying both a
flight and a pickup time, the single emitted record combines the previously
accumulated name with that line's flight and time — the line's tokens are
attached to the currently-open record rather than starting a fresh one. -/
theorem c4_counterexample :
    parse_jobs (("Alice\nALIŞ SAAT: 08:00 TK1710" : String).data) false =
      [{ saat := ("08:00" : String).data, ucus := ("TK1710" : String).data,
         yolcu := ("Alice" : String).data }] := by decide

/-- C4 (amended): a non-address line carrying both a flight token and a
pickup-time token closes the currently-open record, attaching that line's
flight and time to the names accumulated before it, and resets the pending
state. -/
theorem c4_both_tokens_attach_to_open_record
    (st : PState) (cl : Str) (f t : Str)
    (hf : extract_flight_from_line cl = some f)
    (ht : extract_pickup_time_from_line cl = some t)
    (haddr : looks_like_address cl = false)
    (hn : st.pending_names ≠ []) :
    processLine false st cl =
      { jobs := st.jobs ++
          [{ saat := orQmark t, ucus := orQmark f,
             yolcu := joinComma (dedupNames st.pending_names) }],
        pending_names := [], pending_flight := ['?'], pending_drop := false } := by
  have hne : st.pending_names.isEmpty = false := by
    simpa [List.isEmpty_iff] using hn
  unfold processLine
  simp only [Bool.false_and, Bool.false_eq_true, if_false, haddr, hf, ht, hne,
    Bool.not_false, Bool.true_or, if_true]
  unfold finalize
  simp only [Bool.false_and, Bool.false_eq_true, if_false, hne]

/-- C4 witness: the amended theorem applied to the concrete state holding
the name "Alice" and the line "ALIŞ SAAT: 08:00 TK1710". -/
theorem c4_both_tokens_attach_to_open_record_witness :
    processLine false
      { jobs := [], pending_names := [("Alice" : String).data],
        pending_flight := ("?" : String).data, pending_drop := false }
      (("ALIŞ SAAT: 08:00 TK1710" : String).data) =
      { jobs := [{ saat := ("08:00" : String).data,
                   ucus := ("TK1710" : String).data,
                   yolcu := ("Alice" : String).data }],
        pending_names := [], pending_flight := ['?'], pending_drop := false } := by
  have h := c4_both_tokens_attach_to_open_record
    { jobs := [], pending_names := [("Alice" : String).data],
      pending_flight := ("?" : String).data, pending_drop := false }
    (("ALIŞ SAAT: 08:00 TK1710" : String).data)
    (("TK1710" : String).data) (("08:00" : String).data)
    (by decide) (by decide) (by decide) (by simp)
  exact h.trans (by decide)

/-- C5 (counterexample): with the flight "TK1710" found and the anchoring
time "18:05" found but no passenger name, parse_jobs emits nothing instead
of a record with the "?" passenger sentinel. -/
theorem c5_counterexample :
    parse_jobs (("TK1710\n18:05" : String).data) false = [] ∧
    parse_jobs (("TK1710\n18:05" : String).data) true = [] ∧
    extract_flight_from_line (("TK1710" : String).data) =
      some (("TK1710" : String).data) ∧
    extract_pickup_time_from_line (("18:05" : String).data) =
      some (("18:05" : String).data) :=
  ⟨by decide, by decide, by decide, by decide⟩

/-- C5 (amended): when a record's anchoring time arrives with no
accumulated passenger name, finalize drops the record entirely — the job
list is left unchanged (only the flight field ever degrades to "?"). -/
theorem c5_no_name_drops_record (b : Bool) (st : PState) (t : Str)
    (h : st.pending_names = []) :
    (finalize b st t).jobs = st.jobs := by
  have he : st.pending_names.isEmpty = true := by simp [h]
  unfold finalize
  split
  · rfl
  · simp [he]

/-- C5 witness: the amended theorem applied to a pending block holding a
flight but no names. -/
theorem c5_no_name_drops_record_witness :
    (finalize false
      { jobs := [], pending_names := [], pending_flight := ("TK1710" : String).data,
        pending_drop := false }
      (("18:05" : String).data)).jobs = [] :=
  c5_no_name_drops_record false _ _ rfl

/-- C6 (counterexample): two passenger fragments differing only by letter
case are both kept — the dedup is case-sensitive, so the claimed
case-insensitive collapse to one entry fails. -/
theorem c6_counterexample :
    parse_jobs (("Funda Kara\nFUNDA KARA\n18:05" : String).data) false =
      [{ saat := ("18:05" : String).data, ucus := ['?'],
         yolcu := ("Funda Kara, FUNDA KARA" : String).data }] ∧
    dedupNames [("Funda Kara" : String).data, ("FUNDA KARA" : String).data] =
      [("Funda Kara" : String).data, ("FUNDA KARA" : String).data] :=
  ⟨by decide, by decide⟩

/-- C6 (amended): the passenger list of a record contains each accumulated
fragment exactly once up to surrounding-whitespace stripping (exact,
case-sensitive comparison of the stripped strings), in first-seen order:
the dedup output has no duplicates, its members are exactly the non-empty
stripped fragments, it is order-preserving (a sublist of the stripped
input), and it equals keep-first de-duplication of the non-empty stripped
fragments — each entry sits at the position of its first occurrence. -/
theorem c6_dedup_exact_after_strip (l : List Str) :
    (dedupNames l).Nodup ∧
    (∀ s : Str, s ∈ dedupNames l ↔ (s ≠ [] ∧ s ∈ l.map stripPy)) ∧
    (dedupNames l).Sublist (l.map stripPy) ∧
    dedupNames l = dedupFirstSeen ((l.map stripPy).filter (fun s => !s.isEmpty)) := by
  refine ⟨dedup_foldl_nodup l [] (by simp), fun s => ?_, ?_, ?_⟩
  · have h := dedup_foldl_mem l [] s
    simpa [dedupNames] using h
  · obtain ⟨t, ht, hs⟩ := dedup_foldl_sublist l []
    have ht2 : dedupNames l = t := by simpa [dedupNames] using ht
    rw [ht2]
    exact hs
  · have h := dedup_foldl_firstSeen l []
    simpa [dedupNames, dedupFirstSeen] using h

/-- C6 witness: whitespace-differing duplicates of "Funda Kara" collapse;
on the interleaved fragments "Ali", "Veli", " Ali " the keep-first equation
yields ["Ali", "Veli"] (a keep-last dedup would give ["Veli", "Ali"]). -/
theorem c6_dedup_exact_after_strip_witness :
    (dedupNames [(" Funda Kara " : String).data, ("Funda Kara" : String).data]).Nodup ∧
    (("Funda Kara" : String).data ∈
      dedupNames [(" Funda Kara " : String).data, ("Funda Kara" : String).data]) ∧
    dedupNames
        [("Ali" : String).data, ("Veli" : String).data, (" Ali " : String).data] =
      [("Ali" : String).data, ("Veli" : String).data] := by
  refine ⟨(c6_dedup_exact_after_strip _).1, ?_, ?_⟩
  · rw [(c6_dedup_exact_after_strip _).2.1]
    exact ⟨by decide, by decide⟩
  · exact ((c6_dedup_exact_after_strip _).2.2.2).trans (by decide)

/-- C7 (counterexample): rendering the empty record sequence does not
produce the header line "Saat TAB TAB Uçuş TAB Yolcu" — jobs_to_tsv writes
no header at all. -/
theorem c7_counterexample :
    ¬ (jobs_to_tsv (parse_jobs (("" : String).data) false) =
        ("Saat\t\tUçuş\tYolcu" : String).data) := by decide

/-- C7 (amended): empty input yields an empty record sequence, and
rendering an empty sequence yields the empty string; the output consists
solely of one tab-separated line per record, with no header row. -/
theorem c7_empty_input_empty_render :
    parse_jobs (("" : String).data) false = [] ∧
    parse_jobs (("" : String).data) true = [] ∧
    jobs_to_tsv [] = [] ∧
    jobs_to_tsv (parse_jobs (("" : String).data) false) = [] :=
  ⟨by decide, by decide, by decide, by decide⟩

/-- C8 (counterexample): cleaning "Eyüp Abi: Funda Kara" does not strip
the sender prefix — the line is returned unchanged, not as "Funda Kara". -/
theorem c8_counterexample :
    ¬ (clean_line (("Eyüp Abi: Funda Kara" : String).data) =
        ("Funda Kara" : String).data) := by decide

/-- C8 (amended): the cleanup's sender-prefix rule only fires on a full
WhatsApp export stamp "date time sender:"; "11:50: transfer ready" keeps
its leading time, a bare "Eyüp Abi:" prefix is kept as well, and the full
stamp "12.02 11:50 Eyüp Abi:" is stripped, leaving "Funda Kara". -/
theorem c8_sender_prefix_requires_datetime_stamp :
    clean_line (("11:50: transfer ready" : String).data) =
      ("11:50: transfer ready" : String).data ∧
    clean_line (("Eyüp Abi: Funda Kara" : String).data) =
      ("Eyüp Abi: Funda Kara" : String).data ∧
    clean_line (("12.02 11:50 Eyüp Abi: Funda Kara" : String).data) =
      ("Funda Kara" : String).data :=
  ⟨by decide, by decide, by decide⟩

/-- C9 (counterexample): the already-correct text "Århus" contains the
marker character 'Å', so fix_mojibake re-transcodes it to "rhus" — the
repair is not a no-op on this correct text, and applying it twice does not
equal applying it zero times. -/
theorem c9_counterexample :
    containsMarker (("Århus" : String).data) = true ∧
    fix_mojibake (("Århus" : String).data) = ("rhus" : String).data ∧
    ¬ (fix_mojibake (("Århus" : String).data) = ("Århus" : String).data) ∧
    fix_mojibake (fix_mojibake (("Århus" : String).data)) = ("rhus" : String).data :=
  ⟨by decide, by decide, by decide, by decide⟩

/-- C9 (amended): fix_mojibake is the identity — and hence idempotent — on
every string containing none of the marker characters 'Ã', 'Å', 'Ä'; a
string containing a marker is re-transcoded even if it was correct text. -/
theorem c9_no_marker_identity (s : Str) (h : containsMarker s = false) :
    fix_mojibake s = s ∧ fix_mojibake (fix_mojibake s) = s := by
  have h1 : fix_mojibake s = s := by
    unfold fix_mojibake
    split
    · rfl
    · simp [h]
  exact ⟨h1, by rw [h1, h1]⟩

/-- C9 witness: the amended theorem applied to marker-free correct text. -/
theorem c9_no_marker_identity_witness :
    fix_mojibake (("Funda Kara" : String).data) = ("Funda Kara" : String).data :=
  (c9_no_marker_identity (("Funda Kara" : String).data) (by decide)).1

/-- C10: with drop_saw enabled, a cleaned line containing "SAW"
(case-insensitively) only marks the pending block for discard, and a marked
block is discarded unemitted at its next finalize (names and flight reset,
job list unchanged); end to end, "Alice/SAW/19:00" yields no record with
drop_saw on, and yields the accumulated record with drop_saw off. -/
theorem c10_drop_saw_discards_pending :
    (∀ (st : PState) (cl : Str), hasSAW cl = true →
        processLine true st cl = { st with pending_drop := true }) ∧
    (∀ (st : PState) (t : Str), st.pending_drop = true →
        finalize true st t =
          { st with pending_names := [], pending_flight := ['?'],
                    pending_drop := false }) ∧
    parse_jobs (("Alice\nSAW\n19:00" : String).data) true = [] ∧
    parse_jobs (("Alice\nSAW\n19:00" : String).data) false =
      [{ saat := ("19:00" : String).data, ucus := ['?'],
         yolcu := ("Alice, SAW" : String).data }] := by
  refine ⟨?_, ?_, by decide, by decide⟩
  · intro st cl h
    unfold processLine
    simp [h]
  · intro st t h
    unfold finalize
    simp [h]

/-- C10 witness: the marking step on the line "SAW" and the discarding
finalize on the marked state. -/
theorem c10_drop_saw_discards_pending_witness :
    processLine true initState (("SAW" : String).data) =
      { initState with pending_drop := true } ∧
    finalize true { initState with pending_drop := true } (("19:00" : String).data) =
      { initState with pending_drop := false } := by
  constructor
  · exact c10_drop_saw_discards_pending.1 initState (("SAW" : String).data) (by decide)
  · exact c10_drop_saw_discards_pending.2.1
      { initState with pending_drop := true } (("19:00" : String).data) rfl

end AiTransfer
